import Mathlib

/-!
# Verification of the httpie CLI (src/main.rs)

A shallow embedding of the Rust program in `src/main.rs`: a minimal httpie
clone with `get` and `post` subcommands.  Strings are modelled by Lean
`String` (a list of characters); Rust's `str::split('=')` iterator agrees
with `List.splitOn '='` on the underlying character list (both yield the
n+1 separator-free segments, `[""]` on the empty string).  Fallible Rust
functions returning `Result` are modelled with `Except String`.
-/

namespace Httpie

/-- Embedding of `struct KvPair { k: String, v: String }` (main.rs).
Two pairs are equal iff both fields are equal (`#[derive(PartialEq)]`). -/
structure KvPair where
  k : String
  v : String
deriving DecidableEq, Repr

/-- Embedding of `KvPair::from_str` (main.rs lines 69-84): split the input on
`'='`, take the first iterator element as `k` (erroring with
`"Failed to parse <s>"` when absent) and the second as `v` (same error when
absent).  Rust's `split('=')` always yields at least one element, so in the
source only the second `next()` can actually fail. -/
def KvPair.fromStr (s : String) : Except String KvPair :=
  let split := s.data.splitOn '='
  let err : String := "Failed to parse " ++ s
  match split with
  | [] => .error err
  | [_] => .error err
  | k :: v :: _ => .ok ⟨⟨k⟩, ⟨v⟩⟩

/-- Embedding of `parse_kv_pair` (main.rs lines 87-89): delegates to
`KvPair::from_str` via `s.parse()`. -/
def parse_kv_pair (s : String) : Except String KvPair :=
  KvPair.fromStr s

/-! ### Helper lemmas about `List.splitOn '='` -/

theorem splitOn_eq_single {l : List Char} (h : '=' ∉ l) :
    l.splitOn '=' = [l] := by
  apply List.splitOnP_eq_single
  intro x hx
  simp only [beq_iff_eq]
  intro hxe
  exact h (hxe ▸ hx)

theorem splitOn_first {l r : List Char} (h : '=' ∉ l) :
    (l ++ '=' :: r).splitOn '=' = l :: r.splitOn '=' := by
  apply List.splitOnP_first
  · intro x hx
    simp only [beq_iff_eq]
    intro hxe
    exact h (hxe ▸ hx)
  · simp

/-- A list containing `'='` decomposes as the `'='`-free prefix, the first
`'='`, and the remainder. -/
theorem split_decomp {l : List Char} (h : '=' ∈ l) :
    l = l.takeWhile (· != '=') ++ '=' :: (l.dropWhile (· != '=')).tail := by
  induction l with
  | nil => cases h
  | cons c cs ih =>
    by_cases hc : c = '='
    · subst hc
      simp
    · have hm : '=' ∈ cs := by
        rcases List.mem_cons.mp h with h1 | h1
        · exact absurd h1.symm hc
        · exact h1
      have hbc : (c != '=') = true := by simp [hc]
      simp only [List.takeWhile_cons, List.dropWhile_cons, hbc, if_true, List.cons_append]
      exact congrArg (c :: ·) (ih hm)

theorem splitOn_cons_of_mem {l : List Char} (h : '=' ∈ l) :
    l.splitOn '=' =
      l.takeWhile (· != '=') :: ((l.dropWhile (· != '=')).tail).splitOn '=' := by
  conv_lhs => rw [split_decomp h]
  apply splitOn_first
  intro hx
  have := List.mem_takeWhile_imp hx
  simp at this

theorem splitOn_head (l : List Char) :
    (l.splitOn '=').head? = some (l.takeWhile (· != '=')) := by
  by_cases h : '=' ∈ l
  · rw [splitOn_cons_of_mem h]
    rfl
  · rw [splitOn_eq_single h]
    have : l.takeWhile (· != '=') = l := by
      apply List.takeWhile_eq_self_iff.mpr
      intro x hx
      simp only [bne_iff_ne, ne_eq]
      intro hxe
      exact h (hxe ▸ hx)
    rw [this]
    rfl

/-- Elements produced by `splitOnP (· == sep)` never contain the separator. -/
theorem not_mem_of_mem_splitOnP {l t : List Char}
    (h : t ∈ l.splitOnP (· == '=')) : '=' ∉ t := by
  induction l generalizing t with
  | nil =>
    simp only [List.splitOnP_nil, List.mem_singleton] at h
    subst h
    simp
  | cons c cs ih =>
    rw [List.splitOnP_cons] at h
    by_cases hc : c = '='
    · simp only [hc, beq_self_eq_true, if_pos] at h
      rcases List.mem_cons.mp h with h1 | h1
      · subst h1; simp
      · exact ih h1
    · simp only [beq_iff_eq, hc, if_false] at h
      rcases hcs : cs.splitOnP (· == '=') with _ | ⟨hd, tl⟩
      · exact absurd hcs (List.splitOnP_ne_nil _ cs)
      · rw [hcs, List.modifyHead_cons] at h
        have hmemhd : hd ∈ cs.splitOnP (· == '=') := by
          rw [hcs]
          exact List.mem_cons_self hd tl
        rcases List.mem_cons.mp h with h1 | h1
        · subst h1
          intro hmem
          rcases List.mem_cons.mp hmem with h2 | h2
          · exact hc h2.symm
          · exact ih hmemhd h2
        · refine ih (t := t) ?_
          rw [hcs]
          exact List.mem_cons.mpr (Or.inr h1)

/-- Elements produced by splitting on `'='` never contain `'='`. -/
theorem not_mem_of_mem_splitOn {l t : List Char} (h : t ∈ l.splitOn '=') :
    '=' ∉ t :=
  not_mem_of_mem_splitOnP h

/-! ### Characterization of `KvPair.fromStr` -/

theorem fromStr_err {s : String} (h : '=' ∉ s.data) :
    KvPair.fromStr s = .error ("Failed to parse " ++ s) := by
  simp only [KvPair.fromStr]
  rw [splitOn_eq_single h]

theorem fromStr_ok {s : String} (h : '=' ∈ s.data) :
    KvPair.fromStr s = .ok ⟨⟨s.data.takeWhile (· != '=')⟩,
      ⟨((s.data.dropWhile (· != '=')).tail).takeWhile (· != '=')⟩⟩ := by
  simp only [KvPair.fromStr]
  rcases hr : ((s.data.dropWhile (· != '=')).tail).splitOn '=' with _ | ⟨hd, tl⟩
  · exact absurd hr (List.splitOnP_ne_nil _ _)
  · have hhd : hd = ((s.data.dropWhile (· != '=')).tail).takeWhile (· != '=') := by
      have hh := splitOn_head ((s.data.dropWhile (· != '=')).tail)
      rw [hr] at hh
      simpa using hh
    rw [splitOn_cons_of_mem h, hr, hhd]

theorem fromStr_isOk_iff (s : String) :
    (KvPair.fromStr s).isOk = true ↔ '=' ∈ s.data := by
  constructor
  · intro hok
    by_contra hmem
    rw [fromStr_err hmem] at hok
    simp [Except.isOk, Except.toBool] at hok
  · intro hmem
    rw [fromStr_ok hmem]
    rfl

instance {ε α : Type} [DecidableEq ε] [DecidableEq α] : DecidableEq (Except ε α) := fun x y =>
  match x, y with
  | .ok a, .ok b =>
    if h : a = b then isTrue (by rw [h]) else isFalse (by intro he; injection he; contradiction)
  | .error a, .error b =>
    if h : a = b then isTrue (by rw [h]) else isFalse (by intro he; injection he; contradiction)
  | .ok _, .error _ => isFalse (by intro he; injection he)
  | .error _, .ok _ => isFalse (by intro he; injection he)

/-! ### Claims about the KvPair validator -/

/-- C2: for every input string `s`, `KvPair::from_str` fails with the message
`Failed to parse <s>` iff `s` contains no `'='`; otherwise it yields the pair
whose `k` is the text before the first `'='` and whose `v` is the text between
the first and the second `'='` (the rest of the string when there is no second
`'='`); in particular `"a=1" ↦ {a,1}`, `"b=" ↦ {b,ε}`, `"=x" ↦ {ε,x}` and
`"a=b=c" ↦ {a,b}` with the trailing `=c` discarded. -/
theorem kvpair_validator_semantics (s : String) :
    (KvPair.fromStr s = .error ("Failed to parse " ++ s) ↔ '=' ∉ s.data) ∧
    ('=' ∈ s.data →
      KvPair.fromStr s = .ok ⟨⟨s.data.takeWhile (· != '=')⟩,
        ⟨((s.data.dropWhile (· != '=')).tail).takeWhile (· != '=')⟩⟩) ∧
    KvPair.fromStr "a=1" = .ok ⟨"a", "1"⟩ ∧
    KvPair.fromStr "b=" = .ok ⟨"b", ""⟩ ∧
    KvPair.fromStr "=x" = .ok ⟨"", "x"⟩ ∧
    KvPair.fromStr "a=b=c" = .ok ⟨"a", "b"⟩ := by
  refine ⟨⟨?_, fromStr_err⟩, fromStr_ok, by decide, by decide, by decide, by decide⟩
  intro herr
  by_contra hmem
  rw [fromStr_ok hmem] at herr
  cases herr

/-- C2 witness: the theorem applied at the concrete input `"x=y"`. -/
theorem kvpair_validator_semantics_witness :
    KvPair.fromStr "x=y" =
      .ok ⟨⟨"x=y".data.takeWhile (· != '=')⟩,
        ⟨(("x=y".data.dropWhile (· != '=')).tail).takeWhile (· != '=')⟩⟩ :=
  (kvpair_validator_semantics "x=y").2.1 (by decide)

/-- C1 counterexample: with `k = "a"` (which contains no `'='`) and
`v = "b=c"`, parsing `k ++ "=" ++ v` does not yield `{k, v}`: the validator
returns `{a, b}` and discards the trailing `=c`. -/
theorem kvpair_roundtrip_counterexample :
    '=' ∉ "a".data ∧
    KvPair.fromStr ("a" ++ "=" ++ "b=c") ≠ .ok ⟨"a", "b=c"⟩ ∧
    KvPair.fromStr ("a" ++ "=" ++ "b=c") = .ok ⟨"a", "b"⟩ := by
  decide

/-- C1 (amended): the round-trip holds when both `k` and `v` are free of
`'='`: parsing `k ++ "=" ++ v` succeeds and yields exactly `{k, v}`. -/
theorem kvpair_roundtrip (k v : String) (hk : '=' ∉ k.data) (hv : '=' ∉ v.data) :
    KvPair.fromStr (k ++ "=" ++ v) = .ok ⟨k, v⟩ := by
  have hdata : (k ++ "=" ++ v).data = k.data ++ '=' :: v.data := by
    simp
  simp only [KvPair.fromStr]
  rw [hdata, splitOn_first hk, splitOn_eq_single hv]

/-- C1 witness: the amended round-trip at `k = "ab"`, `v = "cd"`. -/
theorem kvpair_roundtrip_witness :
    KvPair.fromStr ("ab" ++ "=" ++ "cd") = .ok ⟨"ab", "cd"⟩ :=
  kvpair_roundtrip "ab" "cd" (by decide) (by decide)

/-- C3 counterexample: the validator succeeds on `"=x"` and produces a pair
whose key is the empty string, so `k` is not non-empty by construction. -/
theorem kvpair_nonempty_key_counterexample :
    KvPair.fromStr "=x" = .ok ⟨"", "x"⟩ ∧ ("" : String).length = 0 := by
  decide

/-- C3 (amended): every pair produced by a successful run of the validator on
an input that does not begin with `'='` has a non-empty key. -/
theorem kvpair_key_nonempty (s : String) (kv : KvPair)
    (h : KvPair.fromStr s = .ok kv) (h0 : s.data.head? ≠ some '=') :
    kv.k ≠ "" := by
  have hmem : '=' ∈ s.data := by
    by_contra hmem
    rw [fromStr_err hmem] at h
    cases h
  rw [fromStr_ok hmem] at h
  injection h with h
  subst h
  rcases hsd : s.data with _ | ⟨c, cs⟩
  · rw [hsd] at hmem
    cases hmem
  · have hc : c ≠ '=' := by
      rw [hsd] at h0
      simp only [List.head?_cons, ne_eq, Option.some.injEq] at h0
      exact h0
    have hbc : (c != '=') = true := by simp [hc]
    simp only [hsd, List.takeWhile_cons, hbc, if_true]
    intro heq
    have := congrArg String.data heq
    cases this

/-- C3 witness: the amended statement at the concrete input `"a=1"`. -/
theorem kvpair_key_nonempty_witness : (KvPair.mk "a" "1").k ≠ "" :=
  kvpair_key_nonempty "a=1" ⟨"a", "1"⟩ (by decide) (by decide)

/-- C10: every pair produced by a successful run of the validator has a key
and a value that both contain no `'='` character. -/
theorem kvpair_fields_eq_free (s : String) (kv : KvPair)
    (h : KvPair.fromStr s = .ok kv) : '=' ∉ kv.k.data ∧ '=' ∉ kv.v.data := by
  simp only [KvPair.fromStr] at h
  rcases hsp : s.data.splitOn '=' with _ | ⟨a, _ | ⟨b, rest⟩⟩ <;> rw [hsp] at h
  · cases h
  · cases h
  · injection h with h
    subst h
    constructor
    · exact not_mem_of_mem_splitOn (hsp ▸ List.mem_cons_self a _)
    · exact not_mem_of_mem_splitOn
        (hsp ▸ List.mem_cons.mpr (Or.inr (List.mem_cons_self b rest)))

/-- C10 witness: the invariant at the concrete input `"a=1"`. -/
theorem kvpair_fields_eq_free_witness :
    '=' ∉ ("a" : String).data ∧ '=' ∉ ("1" : String).data :=
  kvpair_fields_eq_free "a=1" ⟨"a", "1"⟩ (by decide)

/-! ### URL validation -/

/-- A valid scheme: a letter followed by letters, digits, `+`, `-` or `.`. -/
def schemeValid (l : List Char) : Bool :=
  match l with
  | [] => false
  | c :: cs => c.isAlpha && cs.all (fun d => d.isAlphanum || d == '+' || d == '-' || d == '.')

/-- Modelled from the spec: the `url` crate's `Url::parse` (a dependency whose
source is not part of this repository).  Per §4.2 it "succeeds iff the string
parses as an absolute URL with a scheme and host recognized by a standard URL
grammar".  The model requires a scheme terminated by `':'` (so `"abc"` is
rejected as a relative URL without a base), and for the special schemes
`http`/`https` additionally requires `"//"` followed by a non-empty host. -/
def urlParseOk (s : String) : Bool :=
  let scheme := s.data.takeWhile (fun c => c != ':')
  let rest := s.data.dropWhile (fun c => c != ':')
  match rest with
  | [] => false
  | _ :: afterColon =>
    schemeValid scheme &&
    (if scheme.map Char.toLower = "http".data || scheme.map Char.toLower = "https".data then
      match afterColon with
      | '/' :: '/' :: hostAndPath =>
        !(hostAndPath.takeWhile (fun c => c != '/' && c != '?' && c != '#')).isEmpty
      | _ => false
    else true)

/-- Embedding of `parse_url` (main.rs lines 91-95): validate the string as a
URL (`s.parse::<Url>()?`) and return the original string unchanged
(`Ok(s.into())`). -/
def parse_url (s : String) : Except String String :=
  if urlParseOk s then .ok s else .error ("invalid url: " ++ s)

/-- C6: URL validation succeeds iff the string parses under the (modelled) URL
grammar — rejecting `"abc"`, accepting `"http://abc.xyz"` and
`"https://httpbin.org/post"` — and on success the validator returns the input
string verbatim. -/
theorem url_validator (s : String) :
    ((parse_url s).isOk = true ↔ urlParseOk s = true) ∧
    (∀ t, parse_url s = .ok t → t = s) ∧
    (parse_url "abc").isOk = false ∧
    (parse_url "http://abc.xyz").isOk = true ∧
    (parse_url "https://httpbin.org/post").isOk = true := by
  refine ⟨?_, ?_, by decide, by decide, by decide⟩
  · unfold parse_url
    by_cases h : urlParseOk s = true <;> simp [h, Except.isOk, Except.toBool]
  · intro t ht
    unfold parse_url at ht
    by_cases h : urlParseOk s = true
    · rw [if_pos h] at ht
      injection ht with ht
      exact ht.symm
    · rw [if_neg h] at ht
      cases ht

/-- C6 witness: the theorem applied at the concrete input
`"https://httpbin.org/post"`, discharging the verbatim-return hypothesis. -/
theorem url_validator_witness :
    ("https://httpbin.org/post" : String) = "https://httpbin.org/post" :=
  (url_validator "https://httpbin.org/post").2.1 "https://httpbin.org/post" (by decide)

/-! ### POST body construction -/

/-- Embedding of the body-construction loop of `post` (main.rs lines
116-125): a `HashMap<&str, &str>` is modelled by its key→value lookup
function, and `body.insert(&pair.k, &pair.v)` by a pointwise update (which
overwrites any earlier binding of the same key, exactly as `HashMap::insert`
does).  The pairs are inserted in command-line order. -/
def post_body (pairs : List KvPair) : String → Option String :=
  pairs.foldl (fun m p => fun key => if key = p.k then some p.v else m key) (fun _ => none)

theorem post_body_foldl (pairs : List KvPair) (m : String → Option String) (key : String) :
    pairs.foldl (fun m p => fun key => if key = p.k then some p.v else m key) m key =
      ((pairs.reverse.find? (fun p => p.k == key)).map KvPair.v).or (m key) := by
  induction pairs generalizing m with
  | nil => simp
  | cons p ps ih =>
    simp only [List.foldl_cons, List.reverse_cons, ih, List.find?_append]
    rcases hf : ps.reverse.find? (fun p => p.k == key) with _ | q
    · by_cases hk : key = p.k
      · subst hk
        simp [hf]
      · have hk2 : ¬p.k = key := fun he => hk he.symm
        simp [hf, hk, hk2]
    · simp [hf]

/-- C7: the JSON body sent by `post` maps each key to the value of the last
command-line pair carrying that key (`HashMap::insert` overwrites earlier
bindings); duplicate keys are accepted, not an error. -/
theorem post_last_write_wins (pairs : List KvPair) (key : String) :
    post_body pairs key = (pairs.reverse.find? (fun p => p.k == key)).map KvPair.v := by
  unfold post_body
  rw [post_body_foldl]
  simp

/-! ### The response renderer

The response snapshot consumed by `print_resp`, and the renderer's output
modelled as a trace of emitted items.  The third-party `mime` and `http`
crates are modelled by `mimeParse` / `HeaderValue.toStr`; the `.unwrap()`
calls of `get_content_type` are modelled by `PanicOr`. -/

/-- A raw header value as stored by the `http` crate: a byte sequence. -/
structure HeaderValue where
  bytes : List Nat
deriving DecidableEq, Repr

/-- Model of the `http` crate's `HeaderValue::to_str` (dependency, not in this
repository): succeeds iff every byte is visible ASCII (32-126, or tab),
yielding the corresponding text; returns `none` otherwise. -/
def HeaderValue.toStr (v : HeaderValue) : Option String :=
  if v.bytes.all (fun b => b == 9 || (decide (32 ≤ b) && decide (b ≤ 126))) then
    some ⟨v.bytes.map Char.ofNat⟩
  else none

/-- Convenience constructor: the header value holding the bytes of `s`. -/
def hv (s : String) : HeaderValue := ⟨s.data.map Char.toNat⟩

/-- Model of the `mime` crate's `Mime` type: the lower-cased
`type/subtype` essence together with the (lower-cased) parameter list. -/
structure Mime where
  essence : String
  params : List (String × String)
deriving DecidableEq, Repr

/-- Characters allowed in a MIME token (restricted to the common ones). -/
def isTokenChar (c : Char) : Bool :=
  c.isAlphanum || "!#$%&*+-.^_|~".data.contains c

/-- One `name=value` MIME parameter, with leading spaces stripped. -/
def parseParam (seg : List Char) : Option (String × String) :=
  let seg2 := seg.dropWhile (· == ' ')
  match seg2.splitOn '=' with
  | [n, v] =>
    if !n.isEmpty && n.all isTokenChar && !v.isEmpty && v.all isTokenChar then
      some (⟨n.map Char.toLower⟩, ⟨v.map Char.toLower⟩)
    else none
  | _ => none

/-- Model of the `mime` crate's parser (dependency, not in this repository):
`"type/subtype"` followed by `';'`-separated `name=value` parameters; fails
when the shape or the token characters are invalid. -/
def mimeParse (s : String) : Option Mime :=
  match s.data.splitOn ';' with
  | [] => none
  | main :: rest =>
    match main.splitOn '/' with
    | [t, sub] =>
      if !t.isEmpty && !sub.isEmpty && t.all isTokenChar && sub.all isTokenChar then
        match rest.mapM parseParam with
        | some ps => some ⟨⟨t.map Char.toLower⟩ ++ "/" ++ ⟨sub.map Char.toLower⟩, ps⟩
        | none => none
      else none
    | _ => none

/-- The constant `mime::APPLICATION_JSON` (no parameters). -/
def APPLICATION_JSON : Mime := ⟨"application/json", []⟩

/-- The constant `mime::TEXT_HTML` (no parameters). -/
def TEXT_HTML : Mime := ⟨"text/html", []⟩

/-- Model of the `mime` crate's `PartialEq for Mime`: two MIME values are
equal iff both the essence and the *parameters* agree — the comparison does
NOT discard parameters, so `application/json; charset=utf-8` is not equal to
`mime::APPLICATION_JSON` (case-insensitivity is realized here by the
parse-time lower-casing). -/
def Mime.beq (a b : Mime) : Bool :=
  a.essence == b.essence && a.params == b.params

/-- Embedding of the panic behavior of `.unwrap()`. -/
inductive PanicOr (α : Type) where
  | panic (msg : String)
  | ok (a : α)
deriving DecidableEq, Repr

/-- Embedding of the `Response` snapshot consumed by the renderer: protocol
version, status (code and reason), header sequence in server order, and the
result of decoding the body as text (`resp.text()`). -/
structure Response where
  version : String
  status : String
  headers : List (String × HeaderValue)
  bodyText : Except String String

/-- Embedding of `resp.headers().get(name)`: first header whose
(case-insensitively stored) name matches. -/
def headerGet (resp : Response) (name : String) : Option HeaderValue :=
  (resp.headers.find? (fun h => (⟨h.1.data.map Char.toLower⟩ : String) == name)).map
    (fun h => h.2)

/-- Embedding of `get_content_type` (main.rs lines 180-184): read the first
`Content-Type` header and `.map(|v| v.to_str().unwrap().parse().unwrap())` —
both `.unwrap()`s panic on failure. -/
def get_content_type (resp : Response) : PanicOr (Option Mime) :=
  match headerGet resp "content-type" with
  | none => .ok none
  | some v =>
    match v.toStr with
    | none => .panic "HeaderValue::to_str failed"
    | some s =>
      match mimeParse s with
      | none => .panic "Mime parse failed"
      | some m => .ok (some m)

/-- What `print_body` emits: either the syntect highlighter invoked with a
language extension, or the exact bytes written by `println!("{}", body)`. -/
inductive BodyOut where
  | highlighted (ext : String) (body : String)
  | verbatim (out : String)
deriving DecidableEq, Repr

/-- Embedding of `print_body` (main.rs lines 155-166): JSON and HTML bodies go
to `print_syntect`; any other mime type — or an absent one — is printed
verbatim with a trailing newline (`println!`). -/
def print_body (m : Option Mime) (body : String) : BodyOut :=
  match m with
  | some v =>
    if Mime.beq v APPLICATION_JSON then .highlighted "json" body
    else if Mime.beq v TEXT_HTML then .highlighted "html" body
    else .verbatim (body ++ "\n")
  | none => .verbatim (body ++ "\n")

/-- One item of the rendered output trace (ANSI coloring of the status and
header-name text is not modelled; it does not affect which item is which). -/
inductive OutputItem where
  | statusLine (s : String)
  | blank
  | headerLine (name : String) (value : HeaderValue)
  | body (b : BodyOut)
deriving DecidableEq, Repr

def OutputItem.isStatus : OutputItem → Bool
  | .statusLine _ => true
  | _ => false

def OutputItem.isHeader : OutputItem → Bool
  | .headerLine _ _ => true
  | _ => false

def OutputItem.isBody : OutputItem → Bool
  | .body _ => true
  | _ => false

/-- Embedding of `print_status` (main.rs lines 141-144):
`println!("{}\n", status)` emits the status line followed by a blank line. -/
def print_status (resp : Response) : List OutputItem :=
  [.statusLine (resp.version ++ " " ++ resp.status), .blank]

/-- Embedding of `print_headers` (main.rs lines 147-152): one line per header
in response order, then a blank line. -/
def print_headers (resp : Response) : List OutputItem :=
  resp.headers.map (fun h => OutputItem.headerLine h.1 h.2) ++ [.blank]

/-- Embedding of `print_resp` (main.rs lines 169-177): status, headers, then
content-type classification and the body.  A panic in `get_content_type` or a
body-decoding error interrupts the run after the status/header block; the
second component reports the failure. -/
def print_resp (resp : Response) : List OutputItem × Option String :=
  let head := print_status resp ++ print_headers resp
  match get_content_type resp with
  | .panic msg => (head, some msg)
  | .ok m =>
    match resp.bodyText with
    | .error e => (head, some e)
    | .ok body => (head ++ [.body (print_body m body)], none)

/-! ### Concrete responses used as test inputs -/

/-- A response with no `Content-Type` header at all. -/
def respPlain : Response :=
  { version := "HTTP/1.1", status := "200 OK", headers := [], bodyText := .ok "hello" }

/-- A JSON response whose `Content-Type` carries a charset parameter. -/
def respJsonCharset : Response :=
  { version := "HTTP/1.1", status := "200 OK",
    headers := [("content-type", hv "application/json; charset=utf-8")],
    bodyText := .ok "hi" }

/-- A response whose `Content-Type` value is not a parseable MIME type. -/
def respBadMime : Response :=
  { version := "HTTP/1.1", status := "200 OK",
    headers := [("content-type", hv "oops")],
    bodyText := .ok "hi" }

/-! ### Claims about the renderer -/

theorem beq_json_iff (m : Mime) :
    Mime.beq m APPLICATION_JSON = true ↔
      m.essence = "application/json" ∧ m.params = [] := by
  simp [Mime.beq, APPLICATION_JSON]

theorem beq_html_essence {m : Mime} (h : Mime.beq m TEXT_HTML = true) :
    m.essence = "text/html" := by
  simp [Mime.beq, TEXT_HTML] at h
  exact h.1

/-- C4 counterexample: for the concrete response whose `Content-Type` is
`application/json; charset=utf-8` the parameters are NOT stripped before
classification: the parsed MIME compares unequal to `mime::APPLICATION_JSON`,
so the body is printed verbatim instead of being passed to the JSON
highlighter (which a parameter-free `application/json` does reach). -/
theorem content_type_params_counterexample :
    (print_resp respJsonCharset).1 =
      print_status respJsonCharset ++ print_headers respJsonCharset ++
        [OutputItem.body (BodyOut.verbatim ("hi" ++ "\n"))] ∧
    (print_resp respJsonCharset).1.all
      (fun x => x != OutputItem.body (BodyOut.highlighted "json" "hi")) = true ∧
    print_body (some APPLICATION_JSON) "hi" = .highlighted "json" "hi" := by
  decide

/-- C4 (amended): the comparison `v == mime::APPLICATION_JSON` takes MIME
parameters into account, so the body is passed to the JSON highlighter iff
the content type is exactly `application/json` with NO parameters; when
parameters such as `charset=utf-8` are present the body is printed
verbatim. -/
theorem mime_params_not_stripped (m : Mime) (body : String) :
    (print_body (some m) body = .highlighted "json" body ↔
      m.essence = "application/json" ∧ m.params = []) ∧
    (m.essence = "application/json" → m.params ≠ [] →
      print_body (some m) body = .verbatim (body ++ "\n")) := by
  constructor
  · constructor
    · intro h
      by_cases hj : Mime.beq m APPLICATION_JSON = true
      · exact (beq_json_iff m).mp hj
      · exfalso
        simp only [print_body, hj, if_false] at h
        by_cases hh : Mime.beq m TEXT_HTML = true
        · rw [if_pos hh] at h
          injection h with h1
          exact absurd h1 (by decide)
        · rw [if_neg hh] at h
          exact BodyOut.noConfusion h
    · intro hm
      have hj : Mime.beq m APPLICATION_JSON = true := (beq_json_iff m).mpr hm
      simp [print_body, hj]
  · intro h1 h2
    have hj : ¬Mime.beq m APPLICATION_JSON = true := by
      intro hj
      exact h2 ((beq_json_iff m).mp hj).2
    have hh : ¬Mime.beq m TEXT_HTML = true := by
      intro hh
      have he := beq_html_essence hh
      rw [h1] at he
      exact absurd he (by decide)
    simp [print_body, hj, hh]

/-- C4 witness: the amended statement applied at the parsed mime of
`application/json; charset=utf-8`. -/
theorem mime_params_not_stripped_witness :
    print_body (some ⟨"application/json", [("charset", "utf-8")]⟩) "hi" =
      .verbatim ("hi" ++ "\n") :=
  (mime_params_not_stripped ⟨"application/json", [("charset", "utf-8")]⟩ "hi").2
    rfl (by decide)

/-- Nothing in the status/header block is a body item. -/
theorem head_no_body (resp : Response) :
    ∀ x ∈ print_status resp ++ print_headers resp, x.isBody = false := by
  intro x hx
  simp only [print_status, print_headers, List.mem_append, List.mem_cons,
    List.mem_singleton, List.mem_map, List.not_mem_nil, or_false] at hx
  rcases hx with (h1 | h1) | (⟨a, _, h1⟩ | h1)
  · subst h1
    rfl
  · subst h1
    rfl
  · subst h1
    rfl
  · subst h1
    rfl

/-- C5 counterexample: on the concrete response whose `Content-Type` value is
`oops` (present, valid as a string, but not a parseable MIME) the renderer
does fail — the run ends with a panic and no body item is ever emitted. -/
theorem unparseable_content_type_counterexample :
    (print_resp respBadMime).2.isSome = true ∧
    (print_resp respBadMime).1.all (fun x => !x.isBody) = true := by
  decide

/-- C5 (amended): for every response whose `Content-Type` header is present
but whose value is not valid as a string or not parseable as a MIME type, the
renderer fails (the `.unwrap()` in `get_content_type` panics): the run stops
after the status/header block and the body is never printed.  Only an absent
header falls through to verbatim printing. -/
theorem unparseable_content_type_panics (resp : Response) (v : HeaderValue)
    (h : headerGet resp "content-type" = some v)
    (h2 : v.toStr = none ∨ ∃ s, v.toStr = some s ∧ mimeParse s = none) :
    ∃ msg, print_resp resp = (print_status resp ++ print_headers resp, some msg) ∧
      ∀ x ∈ (print_resp resp).1, x.isBody = false := by
  have hpanic : ∃ msg, get_content_type resp = .panic msg := by
    rcases h2 with h2 | ⟨s, hs, hm⟩
    · exact ⟨"HeaderValue::to_str failed", by simp [get_content_type, h, h2]⟩
    · exact ⟨"Mime parse failed", by simp [get_content_type, h, hs, hm]⟩
  obtain ⟨msg, hmsg⟩ := hpanic
  have heq : print_resp resp = (print_status resp ++ print_headers resp, some msg) := by
    simp [print_resp, hmsg]
  refine ⟨msg, heq, ?_⟩
  rw [heq]
  exact head_no_body resp

/-- C5 witness: the amended statement at the concrete response whose
`Content-Type` value is `oops`. -/
theorem unparseable_content_type_panics_witness :
    ∃ msg, print_resp respBadMime =
      (print_status respBadMime ++ print_headers respBadMime, some msg) ∧
      ∀ x ∈ (print_resp respBadMime).1, x.isBody = false :=
  unparseable_content_type_panics respBadMime (hv "oops") (by decide)
    (Or.inr ⟨"oops", by decide, by decide⟩)

/-- The trace of `print_resp` is the status/header block followed by body
items only. -/
theorem print_resp_shape (resp : Response) :
    ∃ tail, (print_resp resp).1 = print_status resp ++ print_headers resp ++ tail ∧
      ∀ x ∈ tail, x.isStatus = false ∧ x.isHeader = false := by
  rcases hct : get_content_type resp with msg | m
  · refine ⟨[], ?_, by simp⟩
    simp [print_resp, hct]
  · rcases hb : resp.bodyText with e | body
    · refine ⟨[], ?_, by simp⟩
      simp [print_resp, hct, hb]
    · refine ⟨[OutputItem.body (print_body m body)], ?_, ?_⟩
      · simp [print_resp, hct, hb]
      · intro x hx
        simp only [List.mem_singleton] at hx
        subst hx
        exact ⟨rfl, rfl⟩

/-- C8: the rendered trace begins with the status line, which occurs exactly
once; everything between it and the body section is header lines and blank
lines (no status, no body), and everything after the header section is body
items (no status line, no header line).  Hence the status line precedes every
header line and no header line follows the first body byte. -/
theorem render_order (resp : Response) :
    ∃ pre post,
      (print_resp resp).1 =
        OutputItem.statusLine (resp.version ++ " " ++ resp.status) :: (pre ++ post) ∧
      (∀ x ∈ pre, x.isStatus = false ∧ x.isBody = false) ∧
      (∀ x ∈ post, x.isStatus = false ∧ x.isHeader = false) ∧
      (print_resp resp).1.countP OutputItem.isStatus = 1 := by
  obtain ⟨tail, heq, htail⟩ := print_resp_shape resp
  refine ⟨OutputItem.blank ::
    (resp.headers.map (fun h => OutputItem.headerLine h.1 h.2) ++ [OutputItem.blank]),
    tail, ?_, ?_, ?_, ?_⟩
  · rw [heq]
    simp [print_status, print_headers]
  · intro x hx
    rcases List.mem_cons.mp hx with h1 | h1
    · subst h1
      exact ⟨rfl, rfl⟩
    · rcases List.mem_append.mp h1 with h2 | h2
      · obtain ⟨a, _, h3⟩ := List.mem_map.mp h2
        subst h3
        exact ⟨rfl, rfl⟩
      · rw [List.mem_singleton] at h2
        subst h2
        exact ⟨rfl, rfl⟩
  · intro x hx
    refine ⟨(htail x hx).1, (htail x hx).2⟩
  · rw [heq]
    simp only [print_status, print_headers, List.countP_append, List.countP_cons,
      List.countP_nil]
    have h1 : (resp.headers.map
        (fun h => OutputItem.headerLine h.1 h.2)).countP OutputItem.isStatus = 0 := by
      rw [List.countP_eq_zero]
      intro a ha
      obtain ⟨b, _, hb⟩ := List.mem_map.mp ha
      subst hb
      simp [OutputItem.isStatus]
    have h2 : tail.countP OutputItem.isStatus = 0 := by
      rw [List.countP_eq_zero]
      intro a ha
      have := (htail a ha).1
      simp [this]
    rw [h1, h2]
    rfl

/-- C8 witness: the ordering statement at a concrete response. -/
theorem render_order_witness :
    ∃ pre post,
      (print_resp respPlain).1 =
        OutputItem.statusLine (respPlain.version ++ " " ++ respPlain.status) ::
          (pre ++ post) ∧
      (∀ x ∈ pre, x.isStatus = false ∧ x.isBody = false) ∧
      (∀ x ∈ post, x.isStatus = false ∧ x.isHeader = false) ∧
      (print_resp respPlain).1.countP OutputItem.isStatus = 1 :=
  render_order respPlain

/-- C9: a response with no `Content-Type` header renders as the status/header
block followed by the decoded body text unmodified — no highlighting, no
escapes inserted — with exactly one trailing newline appended (`println!`). -/
theorem no_content_type_verbatim (resp : Response) (body : String)
    (h : headerGet resp "content-type" = none)
    (hb : resp.bodyText = .ok body) :
    print_resp resp =
      (print_status resp ++ print_headers resp ++
        [OutputItem.body (BodyOut.verbatim (body ++ "\n"))], none) := by
  have hct : get_content_type resp = .ok none := by
    unfold get_content_type
    rw [h]
  simp [print_resp, hct, hb, print_body]

/-- C9 witness: the statement at the concrete header-less response. -/
theorem no_content_type_verbatim_witness :
    print_resp respPlain =
      (print_status respPlain ++ print_headers respPlain ++
        [OutputItem.body (BodyOut.verbatim ("hello" ++ "\n"))], none) :=
  no_content_type_verbatim respPlain "hello" (by decide) rfl

end Httpie
